import Mathlib

set_option maxHeartbeats 1000000

/- Verification development for the kuralit realtime voice-and-text agent
server (python-sdk).  The Python modules relevant to the properties below are
embedded shallowly: pure fragments become Lean functions, the stateful
coordinator and the session store become explicit step functions over state
types, Python floats for probabilities and delays become rationals, and code
that may raise returns Except.  Each definition cites the source location it
embeds. -/

/- ## Python value model

The wire-protocol validators operate on a JSON-decoded dict of Python
values.  Only the shapes reachable in the validators are modelled. -/

inductive PyVal where
  | pstr (s : String)
  | pint (n : Int)
  | pbool (b : Bool)
  | pnone
deriving DecidableEq

/-- Python truthiness for the modelled values, as used by bare if tests. -/
def PyVal.truthy : PyVal → Bool
  | .pstr s => s != ""
  | .pint n => n != 0
  | .pbool b => b
  | .pnone => false

/-- Python isinstance check against str for the modelled values. -/
def PyVal.isStr : PyVal → Bool
  | .pstr _ => true
  | _ => false

/-- The underlying string of a PyVal known to be a string. -/
def PyVal.asStr : PyVal → String
  | .pstr s => s
  | _ => ""

abbrev PyDict := List (String × PyVal)

/-- Python dict.get with a default value: first binding of the key wins. -/
def dictGet (d : PyDict) (k : String) (dflt : PyVal) : PyVal :=
  match d.lookup k with
  | some v => v
  | none => dflt

/- ## Wire protocol codec (server/protocol.py) -/

/-- Source: server/protocol.py, ClientTextMessage.validate_text, lines 43-50.
The validator reads data.get with default empty string, rejects falsy or
non-string values, rejects UTF-8 encodings above 4096 bytes, and otherwise
accepts, returning the validated text. -/
def validate_text (data : PyDict) : Except String String :=
  let text := dictGet data "text" (.pstr "")
  if !text.truthy || !text.isStr then
    .error "text field is required and must be a string"
  else if text.asStr.utf8ByteSize > 4096 then
    .error "text exceeds maximum size of 4KB"
  else
    .ok text.asStr

/-- Value of a base64 alphabet character, none for anything else. -/
def b64CharVal (c : Char) : Option Nat :=
  if 'A' ≤ c ∧ c ≤ 'Z' then some (c.toNat - 65)
  else if 'a' ≤ c ∧ c ≤ 'z' then some (c.toNat - 71)
  else if '0' ≤ c ∧ c ≤ '9' then some (c.toNat + 4)
  else if c = '+' then some 62
  else if c = '/' then some 63
  else none

/-- Decode base64 four-character groups into bytes; padding is only accepted
in the final group.  Mirrors the decoding performed by base64.b64decode on an
alphabet-filtered input. -/
def b64DecodeGroups : List Char → Option (List Nat)
  | [] => some []
  | a :: b :: '=' :: '=' :: [] => do
    let va ← b64CharVal a
    let vb ← b64CharVal b
    pure [va * 4 + vb / 16]
  | a :: b :: c :: '=' :: [] => do
    let va ← b64CharVal a
    let vb ← b64CharVal b
    let vc ← b64CharVal c
    pure [va * 4 + vb / 16, (vb % 16) * 16 + vc / 4]
  | a :: b :: c :: d :: rest => do
    let va ← b64CharVal a
    let vb ← b64CharVal b
    let vc ← b64CharVal c
    let vd ← b64CharVal d
    let tail ← b64DecodeGroups rest
    pure ((va * 4 + vb / 16) :: ((vb % 16) * 16 + vc / 4) :: ((vc % 4) * 64 + vd) :: tail)
  | _ => none

/-- Whether b64decode keeps a character: alphabet member or padding. -/
def b64Keep (c : Char) : Bool := (b64CharVal c).isSome || c == '='

/-- Source model of base64.b64decode with validate left at its default: the
input is first filtered to the alphabet plus padding, then decoded in groups
of four; a leftover of one to three characters is a padding error. -/
def b64decode (s : String) : Option (List Nat) :=
  b64DecodeGroups (s.data.filter b64Keep)

/-- Source: server/protocol.py, ClientAudioChunkMessage.validate_chunk, lines
105-119.  The size ValueError raised inside the try block is caught by the
generic except handler and re-raised with the Invalid base64 prefix, exactly
as in the source. -/
def validate_chunk (data : PyDict) : Except String (List Nat) :=
  let chunk := dictGet data "chunk" (.pstr "")
  if !chunk.truthy || !chunk.isStr then
    .error "chunk field is required and must be a string"
  else
    match b64decode chunk.asStr with
    | none => .error "Invalid base64 chunk: decode failed"
    | some decoded =>
      if decoded.length > 16384 then
        .error "Invalid base64 chunk: audio chunk exceeds maximum size of 16KB"
      else
        .ok decoded

/- ## VAD frame event machine (plugins/vad/silero/handler.py) -/

structure VadState where
  is_speaking : Bool
deriving DecidableEq

inductive VadEvent where
  | startOfSpeech
  | endOfSpeech
  | continuing
deriving DecidableEq

/-- Source: plugins/vad/silero/handler.py, SileroVADHandler.process_audio_frame,
lines 336-358.  The model inference producing the probability for the window
is external; the embedded part is the threshold comparison and the speaking
state machine, with probabilities as rationals. -/
def process_audio_frame (threshold : ℚ) (st : VadState) (probability : ℚ) :
    VadState × VadEvent :=
  let is_speech := threshold ≤ probability
  if is_speech ∧ st.is_speaking = false then
    ({ is_speaking := true }, .startOfSpeech)
  else if ¬ is_speech ∧ st.is_speaking = true then
    ({ is_speaking := false }, .endOfSpeech)
  else
    (st, .continuing)

/-- Fold process_audio_frame over a sequence of window probabilities,
collecting the emitted events in order. -/
def runVad (threshold : ℚ) (st : VadState) : List ℚ → VadState × List VadEvent
  | [] => (st, [])
  | p :: ps =>
    let r := process_audio_frame threshold st p
    let rest := runVad threshold r.1 ps
    (rest.1, r.2 :: rest.2)

/- ## Endpointing delay (server/audio_recognition.py) -/

structure ChatMsg where
  role : String
  content : String
deriving DecidableEq

/-- Outcome of turn_detector.predict_end_of_turn: a probability, or an
exception raised during inference. -/
inductive PredictOutcome where
  | ok (p : ℚ)
  | raised
deriving DecidableEq

structure TurnDetector where
  predict_end_of_turn : List ChatMsg → PredictOutcome
  threshold : ℚ

/-- Source: server/audio_recognition.py, _eou_detection_with_delay, lines
247-314: computes the pair (endpointing_delay, eou_probability).  Both are
initialized to (min_delay, 0.0); when a turn detector is configured and the
accumulated transcript is non-empty the detector is called on the history
extended with the current user transcript; probability below threshold picks
max_delay, otherwise min_delay; the except handler at lines 305-308 turns a
raised exception into endpointing_delay = min_delay and probability 0.0 and
continues, so the exception never propagates. -/
def eou_delay (min_delay max_delay : ℚ) (turn_detector : Option TurnDetector)
    (history : List ChatMsg) (audio_transcript : String) : ℚ × ℚ :=
  match turn_detector with
  | some td =>
    if audio_transcript ≠ "" then
      match td.predict_end_of_turn (history ++ [⟨"user", audio_transcript⟩]) with
      | .ok p => if p < td.threshold then (max_delay, p) else (min_delay, p)
      | .raised => (min_delay, 0)
    else
      (min_delay, 0)
  | none => (min_delay, 0)

/- ## Audio Recognition coordinator (server/audio_recognition.py)

The coordinator state is mutated only on the session event loop; its
behaviour is embedded as a step function over the serialized event trace.
The trace events are the coordinator entry points that touch the state:
an STT result arriving in _stt_streaming_task, a VAD event in
handle_vad_event, the commit step of a pending _eou_detection_with_delay
task resuming after its endpointing sleep, and clear_user_turn.  Which
events a scheduler can produce when is over-approximated: eouCommitFire may
occur at any point, which includes every real interleaving of task wakeups. -/

/-- Python str.strip() on its default whitespace set. -/
def pyStrip (s : String) : String :=
  ⟨((s.data.dropWhile Char.isWhitespace).reverse.dropWhile Char.isWhitespace).reverse⟩

structure RecState where
  audio_transcript : String
  audio_interim_transcript : String
  last_final_transcript_time : Option ℕ
  speaking : Bool
deriving DecidableEq

/-- Coordinator state at construction, audio_recognition.py lines 64-67. -/
def initRecState : RecState := ⟨"", "", none, false⟩

inductive RecEvent where
  | sttFinal (text : String) (now : ℕ)
  | sttInterim (text : String)
  | vadStartOfSpeech
  | vadEndOfSpeech
  | eouCommitFire
  | clearUserTurn
deriving DecidableEq

/-- A committed user turn: the transcript passed to on_turn_end and the
coordinator state the callback observes when it runs. -/
structure CommitRecord where
  transcript : String
  state_at_callback : RecState
deriving DecidableEq

/-- Source: server/audio_recognition.py.
sttFinal: lines 180-184, the final text is appended to audio_transcript with
a space separator and the whole accumulator is re-stripped, the interim
transcript is cleared and the final timestamp recorded.
sttInterim: line 198.  vadStartOfSpeech and vadEndOfSpeech: lines 120-131
(the speaking flag; task cancellation has no state effect here).
eouCommitFire: lines 326-340, the commit step after the endpointing sleep:
audio_transcript is re-read at that moment; when empty nothing happens,
otherwise the three transcript fields are cleared before on_turn_end is
invoked with the snapshot.  clearUserTurn: lines 342-347. -/
def recStep (s : RecState) : RecEvent → RecState × Option CommitRecord
  | .sttFinal text now =>
    ({ audio_transcript := pyStrip (s.audio_transcript ++ " " ++ text),
       audio_interim_transcript := "",
       last_final_transcript_time := some now,
       speaking := s.speaking }, none)
  | .sttInterim text =>
    ({ s with audio_interim_transcript := text }, none)
  | .vadStartOfSpeech =>
    ({ s with speaking := true }, none)
  | .vadEndOfSpeech =>
    ({ s with speaking := false }, none)
  | .eouCommitFire =>
    if s.audio_transcript ≠ "" then
      let cleared : RecState :=
        { audio_transcript := "", audio_interim_transcript := "",
          last_final_transcript_time := none, speaking := s.speaking }
      (cleared, some ⟨s.audio_transcript, cleared⟩)
    else
      (s, none)
  | .clearUserTurn =>
    ({ audio_transcript := "", audio_interim_transcript := "",
       last_final_transcript_time := none, speaking := s.speaking }, none)

/-- Run the coordinator over an event trace, collecting the committed turns
in order. -/
def runRec (s : RecState) : List RecEvent → RecState × List CommitRecord
  | [] => (s, [])
  | e :: es =>
    let r := recStep s e
    let rest := runRec r.1 es
    (rest.1, r.2.toList ++ rest.2)

/-- The accumulation the source actually performs over the final transcripts
of one turn: starting from the empty string, each final is appended with a
space separator and the whole accumulator is re-stripped (lines 181-182). -/
def accumFinals (texts : List String) : String :=
  texts.foldl (fun acc t => pyStrip (acc ++ " " ++ t)) ""

/-- Modelled from the spec words of the claim, for comparison with
accumFinals: the single-space-separated, whitespace-trimmed concatenation of
the final transcript texts. -/
def spec_join (texts : List String) : String :=
  pyStrip (String.intercalate " " texts)

/-- Ghost view of one coordinator turn: the list of final transcript texts
received since the last commit or clear. -/
def ghostStep (g : List String) : RecEvent → List String × Option String
  | .sttFinal t _ => (g ++ [t], none)
  | .eouCommitFire =>
    if accumFinals g ≠ "" then ([], some (accumFinals g)) else (g, none)
  | .clearUserTurn => ([], none)
  | _ => (g, none)

def ghostRun (g : List String) : List RecEvent → List String × List String
  | [] => (g, [])
  | e :: es =>
    let r := ghostStep g e
    let rest := ghostRun r.1 es
    (rest.1, r.2.toList ++ rest.2)

/- ## Agent loop (server/agent_handler.py)

process_text_async is an asynchronous generator; it is embedded as a
function from its inputs and its two external collaborators (the streaming
LLM and the tool executor) to the completed run: the final session
conversation and the ordered list of yielded server messages.  A run in
which the first model stream raises is re-raised as AgentError by the outer
handler at line 587 and is embedded as Except.error.  Event-bus publishes,
metrics and logging have no effect on the conversation or the yielded
messages and are not modelled. -/

/-- A tool call as parsed from a model response chunk: the function name,
the raw JSON arguments string, and the optional call id. -/
structure ToolCallReq where
  name : String
  arguments : String
  id : Option String
deriving DecidableEq

/-- A decoded JSON arguments object, as an association list. -/
abbrev ToolArgs := List (String × String)

/-- One streamed model response chunk: optional text content (empty string
models falsy content) and any tool-call deltas. -/
structure StreamChunk where
  content : String
  tool_calls : List ToolCallReq
deriving DecidableEq

/-- The behaviour of one model.ainvoke_stream call: the chunks yielded, the
tool_calls field the plugin leaves on the placeholder assistant message when
the stream ends, and whether the stream raises after its chunks. -/
structure ModelStream where
  chunks : List StreamChunk
  assistant_tool_calls : List ToolCallReq
  fails : Bool
deriving DecidableEq

/-- The tool-result reference recorded on a tool message
(models/message.py Message.tool_calls entries as built at
agent_handler.py lines 448-451). -/
structure ToolCallRecord where
  tool_name : String
  content : String
deriving DecidableEq

/-- Conversation message restricted to the shapes process_text_async
creates and reads: role, string content, and the tool-result references.
Assistant messages are recorded with an empty tool_calls list; the
tool-call dicts a plugin may leave on them are not read back by the
embedded code paths. -/
structure Message where
  role : String
  content : String
  tool_calls : List ToolCallRecord
deriving DecidableEq

/-- Messages yielded to the client by process_text_async. -/
inductive ServerMsg where
  | partialText (text : String)
  | finalText (text : String)
  | toolCallMsg (tool_name : String) (arguments : ToolArgs) (id : Option String)
  | toolResultMsg (tool_name : String) (success : Bool) (payload : String)
      (id : Option String)
deriving DecidableEq

/-- The external collaborators and configuration of one AgentHandler:
instructions (empty models none, matching Python truthiness), the streaming
model as a function of the message list sent to it, json.loads on an
arguments string (error carries str of the raised exception), and the tool
executor including its 30 second timeout (error carries str of the raised
exception; ok carries the normalized result content of lines 404-437). -/
structure AgentEnv where
  instructions : String
  model : List Message → ModelStream
  parse_args : String → Except String ToolArgs
  execute : String → ToolArgs → Except String String

/-- Source: agent_handler.py line 196: the reminder appended to the system
instructions when tool results are present.  The source literal spells the
last words with a contraction. -/
def tool_result_reminder : String :=
  "\n\nREMINDER: You have just received tool/API results. You MUST convert these results into natural, conversational English. NEVER output the raw JSON, code blocks, or technical data structures. Extract the meaningful information and present it as if you are telling a friend about it."

/-- Source: agent_handler.py, _prepare_messages_with_instructions, lines
175-208. -/
def prepare_messages_with_instructions (instructions : String)
    (messages : List Message) : List Message :=
  let has_system_message := messages.any (fun m => m.role == "system")
  let has_tool_results := messages.any (fun m => m.role == "tool")
  if instructions ≠ "" ∧ ¬ has_system_message then
    let ins :=
      if has_tool_results then instructions ++ tool_result_reminder
      else instructions
    ⟨"system", ins, []⟩ :: messages
  else
    messages

/-- Concatenation of the streamed text chunks (the per-turn accumulator of
lines 274-293). -/
def stream_text (chunks : List StreamChunk) : String :=
  chunks.foldl (fun acc c => acc ++ c.content) ""

/-- The server_partial messages emitted while streaming: one per chunk with
truthy content (lines 284-293). -/
def stream_partials (chunks : List StreamChunk) : List ServerMsg :=
  (chunks.filter (fun c => c.content ≠ "")).map (fun c => .partialText c.content)

/-- The tool-call deltas collected across chunks (lines 296-297). -/
def collect_tool_calls (chunks : List StreamChunk) : List ToolCallReq :=
  (chunks.map (fun c => c.tool_calls)).flatten

/-- Output of the per-call tool loop: the messages yielded to the client,
the tool-result Messages recorded into the conversation, and a ghost log of
the (name, parsed arguments) pairs actually executed.  The ghost log has no
source counterpart; it only serves the theorems. -/
structure ToolLoopOut where
  msgs : List ServerMsg
  records : List Message
  exec_log : List (String × ToolArgs)
deriving DecidableEq

/-- Source: agent_handler.py, the for loop over tool_calls_to_execute,
lines 308-494.  For each call: json.loads on the arguments string; on parse
failure the per-call except handler at line 459 yields a failed tool result
and records an error-content tool message, and the tool is never executed
nor is a server_tool_call yielded (the parse precedes the yield at line 318).
On parse success the server_tool_call is yielded, the tool is executed via
the executor with its timeout, and either a completed result is yielded and
recorded (lines 396-458) or the except handler yields a failed result and
records the error (lines 459-494).  The loop always continues with the next
call. -/
def run_tool_calls (env : AgentEnv) : List ToolCallReq → ToolLoopOut
  | [] => ⟨[], [], []⟩
  | tc :: rest =>
    let step : ToolLoopOut :=
      match env.parse_args tc.arguments with
      | .error e =>
        ⟨[.toolResultMsg tc.name false e tc.id],
         [⟨"tool", "Error: " ++ e, [⟨tc.name, "Error: " ++ e⟩]⟩],
         []⟩
      | .ok args =>
        match env.execute tc.name args with
        | .ok content =>
          ⟨[.toolCallMsg tc.name args tc.id,
            .toolResultMsg tc.name true content tc.id],
           [⟨"tool", content, [⟨tc.name, content⟩]⟩],
           [(tc.name, args)]⟩
        | .error e =>
          ⟨[.toolCallMsg tc.name args tc.id,
            .toolResultMsg tc.name false e tc.id],
           [⟨"tool", "Error: " ++ e, [⟨tc.name, "Error: " ++ e⟩]⟩],
           [(tc.name, args)]⟩
    let r := run_tool_calls env rest
    ⟨step.msgs ++ r.msgs, step.records ++ r.records, step.exec_log ++ r.exec_log⟩

/-- Source: agent_handler.py lines 564-585: commit the accumulated text.
When non-empty the assistant message is appended to the session conversation
and a server_text with that text is yielded; when empty only a server_text
with empty text is yielded and nothing is appended. -/
def commit_final (conversation : List Message) (accumulated_text : String) :
    List Message × ServerMsg :=
  if accumulated_text ≠ "" then
    (conversation ++ [⟨"assistant", accumulated_text, []⟩],
     .finalText accumulated_text)
  else
    (conversation, .finalText "")

/-- The completed run of process_text_async: the session conversation after
the run, the yielded messages in order, and two ghost logs without source
counterpart, recording the message lists passed to model.ainvoke_stream and
the tools actually executed. -/
structure AgentRunResult where
  conversation : List Message
  yielded : List ServerMsg
  model_inputs : List (List Message)
  exec_log : List (String × ToolArgs)
deriving DecidableEq

/-- Source: agent_handler.py, process_text_async, lines 210-591.
The user message is appended to the session (line 232); the model is
streamed on the prepared history (lines 266-298); a failing first stream
propagates to the outer handler and raises AgentError (587-591).  The tool
calls to execute are the chunk-collected ones, or the placeholder tool_calls
when none were collected (line 301).  When there are none the accumulated
text is committed (564-585).  Otherwise the tool loop runs, its result
Messages are appended to the session (497-498), the model is re-invoked once
on the updated conversation (506-552); a second-stream failure is caught at
line 555 and the first-round text is kept, otherwise the second-round text
replaces the accumulator (554); the result is then committed (564-585).
Tool calls produced by the second stream are never collected or executed. -/
def process_text_async (env : AgentEnv) (conversation : List Message)
    (text : String) : Except String AgentRunResult :=
  let conv1 := conversation ++ [⟨"user", text, []⟩]
  let prepared1 := prepare_messages_with_instructions env.instructions conv1
  let st1 := env.model prepared1
  if st1.fails then .error "Agent processing failed" else
  let accumulated1 := stream_text st1.chunks
  let collected := collect_tool_calls st1.chunks
  let to_execute := if collected ≠ [] then collected else st1.assistant_tool_calls
  if to_execute = [] then
    let c := commit_final conv1 accumulated1
    .ok ⟨c.1, stream_partials st1.chunks ++ [c.2], [prepared1], []⟩
  else
    let tl := run_tool_calls env to_execute
    let conv2 := conv1 ++ tl.records
    let prepared2 := prepare_messages_with_instructions env.instructions conv2
    let st2 := env.model prepared2
    let accumulated2 := if st2.fails then accumulated1 else stream_text st2.chunks
    let c := commit_final conv2 accumulated2
    .ok ⟨c.1,
         stream_partials st1.chunks ++ tl.msgs ++ stream_partials st2.chunks ++ [c.2],
         [prepared1, prepared2], tl.exec_log⟩

/- ## Session store (server/websocket_server.py, server/session.py) -/

/-- Source: server/session.py, Session.is_expired, lines 217-227: the
inactivity time is compared strictly against the timeout.  Times are in
integer seconds with now at least last_activity. -/
def is_expired (last_activity : ℕ) (timeout_seconds : ℕ) (now : ℕ) : Bool :=
  timeout_seconds < now - last_activity

structure SessionRec where
  created_at : ℕ
  last_activity : ℕ
deriving DecidableEq

structure StoreState where
  sessions : List (String × SessionRec)
  published_events : List String
deriving DecidableEq

def update_activity (sessions : List (String × SessionRec)) (sid : String)
    (now : ℕ) : List (String × SessionRec) :=
  sessions.map (fun p => if p.1 = sid then (p.1, ⟨p.2.created_at, now⟩) else p)

/-- Source: server/websocket_server.py, the session handling of the main
message loop, lines 378-403: the session id of an incoming client message is
looked up; when absent a session is created and a session_created event
published; last_activity is then updated.  This is the only operation in the
server that mutates the sessions map: no code path removes an entry and no
other event type concerning session lifecycle is published. -/
def handle_message_session (st : StoreState) (session_id : String) (now : ℕ) :
    StoreState :=
  match st.sessions.lookup session_id with
  | some _ =>
    ⟨update_activity st.sessions session_id now, st.published_events⟩
  | none =>
    ⟨st.sessions ++ [(session_id, ⟨now, now⟩)],
     st.published_events ++ ["session_created"]⟩

/-- The operations through which the server touches the session store.
Session.is_expired has no caller in the repository, so no expiry operation
exists to include here. -/
inductive StoreOp where
  | clientMessage (session_id : String) (now : ℕ)
deriving DecidableEq

def run_store (st : StoreState) : List StoreOp → StoreState
  | [] => st
  | .clientMessage sid now :: ops => run_store (handle_message_session st sid now) ops

/- ## Helper definitions used by the theorem statements -/

/-- Whether a yielded message is the final server_text. -/
def isFinalText : ServerMsg → Bool
  | .finalText _ => true
  | _ => false

/-- Whether a yielded message is a server_tool_call. -/
def isToolCallMsg : ServerMsg → Bool
  | .toolCallMsg _ _ _ => true
  | _ => false

/-- Number of assistant messages in a conversation. -/
def assistant_count (ms : List Message) : ℕ :=
  (ms.filter (fun m => m.role == "assistant")).length

/-- The (name, arguments) pairs of the calls in a list whose arguments
string parses: precisely the calls run_tool_calls executes. -/
def parsed_ok (env : AgentEnv) (tcs : List ToolCallReq) :
    List (String × ToolArgs) :=
  tcs.filterMap (fun tc =>
    match env.parse_args tc.arguments with
    | .ok args => some (tc.name, args)
    | .error _ => none)

/-- No two START_OF_SPEECH events without an intervening END_OF_SPEECH:
after discarding CONTINUING events, no two adjacent events are both
START_OF_SPEECH. -/
def noDoubleStart (events : List VadEvent) : Prop :=
  List.Chain' (fun a b => ¬ (a = VadEvent.startOfSpeech ∧ b = VadEvent.startOfSpeech))
    (events.filter (fun e => e ≠ VadEvent.continuing))

/- ## Concrete inputs for counterexamples and witnesses -/

/-- A turn detector whose prediction equals its threshold exactly. -/
def tdExact : TurnDetector := ⟨fun _ => .ok (3/5), 3/5⟩

/-- A turn detector whose inference raises. -/
def tdRaising : TurnDetector := ⟨fun _ => .raised, 3/5⟩

/-- An event trace for the coordinator: two finals accumulate during a turn
and a pending EOU task then commits. -/
def demoTrace : List RecEvent :=
  [.vadStartOfSpeech, .sttInterim "hel", .sttFinal "hello" 3,
   .vadStartOfSpeech, .sttFinal "world" 5, .vadEndOfSpeech, .eouCommitFire]

/-- A model that requests one tool call in its first response and, once tool
results are in the conversation, requests another tool call alongside its
answer text. -/
def c4_model (msgs : List Message) : ModelStream :=
  if msgs.any (fun m => m.role == "tool") then
    ⟨[⟨"", [⟨"second_tool", "\x7b\x7d", none⟩]⟩, ⟨"done", []⟩], [], false⟩
  else
    ⟨[⟨"", [⟨"first_tool", "\x7b\x7d", none⟩]⟩], [], false⟩

def c4_env : AgentEnv :=
  ⟨"", c4_model, fun _ => .ok [], fun _ _ => .ok "result"⟩

/-- A model that streams no content and no tool calls. -/
def c5_env : AgentEnv :=
  ⟨"", fun _ => ⟨[], [], false⟩, fun _ => .ok [], fun _ _ => .ok ""⟩

/-- A model that requests one tool call whose arguments string is not JSON,
then answers once tool results are in the conversation. -/
def c6_model (msgs : List Message) : ModelStream :=
  if msgs.any (fun m => m.role == "tool") then
    ⟨[⟨"ok", []⟩], [], false⟩
  else
    ⟨[⟨"", [⟨"lookup_user", "not json", none⟩]⟩], [], false⟩

def c6_env : AgentEnv :=
  ⟨"", c6_model, fun _ => .error "Expecting value: line 1 column 1 (char 0)",
   fun _ _ => .ok "ran"⟩

/-- A text of exactly 4096 UTF-8 bytes. -/
def text4096 : String := String.mk (List.replicate 4096 'a')

/-- A text of exactly 4097 UTF-8 bytes. -/
def text4097 : String := String.mk (List.replicate 4097 'a')

/-- Base64 of 16384 bytes: 5461 full groups and one two-character group. -/
def chunk16384 : String :=
  String.mk (List.replicate 21844 'A' ++ ['A', 'A', '=', '='])

/-- Base64 of 16385 bytes: 5461 full groups and one three-character group. -/
def chunk16385 : String :=
  String.mk (List.replicate 21844 'A' ++ ['A', 'A', 'A', '='])

/- ## Theorems -/

/- ### C2 / C3: endpointing delay selection -/

/-- C2: in every EOU detection task in which the turn detector runs without
raising, the endpointing delay equals min_delay when the predicted
probability is at least the threshold (in particular at the threshold
exactly) and max_delay when it is below; with no turn detector configured
the delay is min_delay. -/
theorem eou_delay_threshold (min_delay max_delay : ℚ) (td : TurnDetector)
    (history : List ChatMsg) (t : String) (p : ℚ)
    (ht : t ≠ "")
    (hp : td.predict_end_of_turn (history ++ [⟨"user", t⟩]) = .ok p) :
    ((td.threshold ≤ p →
        (eou_delay min_delay max_delay (some td) history t).1 = min_delay) ∧
     (p < td.threshold →
        (eou_delay min_delay max_delay (some td) history t).1 = max_delay)) ∧
    (∀ h2 t2, (eou_delay min_delay max_delay none h2 t2).1 = min_delay) := by
  refine ⟨⟨?_, ?_⟩, fun _ _ => rfl⟩
  · intro hge
    simp [eou_delay, ht, hp, not_lt.mpr hge]
  · intro hlt
    simp [eou_delay, ht, hp, hlt]

/-- Witness for eou_delay_threshold at a probability equal to the
threshold: the minimum delay is used. -/
theorem eou_delay_threshold_witness :
    (eou_delay (1/2) 3 (some tdExact) [] "hi").1 = 1/2 :=
  (eou_delay_threshold (1/2) 3 tdExact [] "hi" (3/5) (by decide) rfl).1.1 (le_refl _)

/-- C3 counterexample: when the turn detector raises, the source uses the
minimum endpointing delay, not the maximum claimed: with the default delays
0.5 and 3.0 the chosen delay is 0.5 and 0.5 is not 3.0. -/
theorem eou_raise_counterexample :
    (eou_delay (1/2) 3 (some tdRaising) [] "hi").1 = 1/2 ∧ (1/2 : ℚ) ≠ 3 :=
  ⟨rfl, by norm_num⟩

/-- C3 amended: when the turn-detector call raises, the except handler
yields probability 0.0 and the minimum endpointing delay, and the exception
never propagates (the embedded computation is total and processing
continues). -/
theorem eou_delay_on_raise (min_delay max_delay : ℚ) (td : TurnDetector)
    (history : List ChatMsg) (t : String) (ht : t ≠ "")
    (hr : td.predict_end_of_turn (history ++ [⟨"user", t⟩]) = .raised) :
    eou_delay min_delay max_delay (some td) history t = (min_delay, 0) := by
  simp [eou_delay, ht, hr]

/-- Witness for eou_delay_on_raise. -/
theorem eou_delay_on_raise_witness :
    eou_delay (1/2) 3 (some tdRaising) [] "hi" = (1/2, 0) :=
  eou_delay_on_raise (1/2) 3 tdRaising [] "hi" (by decide) rfl

/- ### C9 / C10: wire protocol validation -/

/-- C10: a client_text whose text is missing (the dict default applies),
not a string, or the empty string is rejected with the validation error, and
conversely every accepted text is non-empty: an empty user text can never
pass the codec. -/
theorem client_text_rejects_empty (data : PyDict) :
    (dictGet data "text" (.pstr "") = .pstr "" →
      validate_text data = .error "text field is required and must be a string") ∧
    (∀ v, dictGet data "text" (.pstr "") = v → v.isStr = false →
      validate_text data = .error "text field is required and must be a string") ∧
    (∀ s, validate_text data = .ok s → s ≠ "") := by
  refine ⟨?_, ?_, ?_⟩
  · intro h
    simp [validate_text, h, PyVal.truthy]
  · intro v hv hstr
    simp [validate_text, hv, hstr]
  · intro s hs
    unfold validate_text at hs
    rcases hv : dictGet data "text" (.pstr "") with s0 | n | b
    case pnone =>
      rw [hv] at hs
      simp [PyVal.truthy, PyVal.isStr] at hs
    case pint =>
      rw [hv] at hs
      simp [PyVal.truthy, PyVal.isStr] at hs
    case pbool =>
      rw [hv] at hs
      simp [PyVal.truthy, PyVal.isStr] at hs
    case pstr =>
      rw [hv] at hs
      by_cases h0 : s0 = ""
      · subst h0
        simp [PyVal.truthy, PyVal.isStr] at hs
      · simp only [PyVal.truthy, PyVal.isStr, PyVal.asStr, bne, h0] at hs
        split at hs
        · simp at hs
        · split at hs
          · simp at hs
          · simp at hs
            subst hs
            exact h0

/-- Witness for client_text_rejects_empty: a non-string text value is
rejected. -/
theorem client_text_rejects_empty_witness :
    validate_text [("text", PyVal.pint 5)] =
      .error "text field is required and must be a string" :=
  (client_text_rejects_empty [("text", PyVal.pint 5)]).2.1 (PyVal.pint 5) rfl rfl

/-- C9: texts of exactly 4096 UTF-8 bytes are accepted and 4097 rejected;
chunks of exactly 16384 decoded bytes are accepted and 16385 rejected; the
validators return errors or fully validated values, never partial ones. -/
theorem protocol_size_boundaries (data : PyDict) :
    (∀ s, dictGet data "text" (.pstr "") = .pstr s → s.utf8ByteSize = 4096 →
      validate_text data = .ok s) ∧
    (∀ s, dictGet data "text" (.pstr "") = .pstr s → s.utf8ByteSize = 4097 →
      validate_text data = .error "text exceeds maximum size of 4KB") ∧
    (∀ c bytes, dictGet data "chunk" (.pstr "") = .pstr c →
      b64decode c = some bytes → bytes.length = 16384 →
      validate_chunk data = .ok bytes) ∧
    (∀ c bytes, dictGet data "chunk" (.pstr "") = .pstr c →
      b64decode c = some bytes → bytes.length = 16385 →
      validate_chunk data =
        .error "Invalid base64 chunk: audio chunk exceeds maximum size of 16KB") := by
  have hempty : ("" : String).utf8ByteSize = 0 := rfl
  refine ⟨?_, ?_, ?_, ?_⟩
  · intro s hv hsz
    have hne : s ≠ "" := by
      intro h
      rw [h, hempty] at hsz
      exact absurd hsz (by norm_num)
    simp [validate_text, hv, PyVal.truthy, PyVal.isStr, PyVal.asStr, hne, hsz]
  · intro s hv hsz
    have hne : s ≠ "" := by
      intro h
      rw [h, hempty] at hsz
      exact absurd hsz (by norm_num)
    simp [validate_text, hv, PyVal.truthy, PyVal.isStr, PyVal.asStr, hne, hsz]
  · intro c bytes hv hdec hlen
    have hne : c ≠ "" := by
      intro h
      rw [h] at hdec
      have : bytes = [] := by
        have h0 : b64decode "" = some [] := rfl
        rw [h0] at hdec
        exact (Option.some_injective _ hdec).symm
      rw [this] at hlen
      simp at hlen
    simp [validate_chunk, hv, PyVal.truthy, PyVal.isStr, PyVal.asStr, hne, hdec, hlen]
  · intro c bytes hv hdec hlen
    have hne : c ≠ "" := by
      intro h
      rw [h] at hdec
      have : bytes = [] := by
        have h0 : b64decode "" = some [] := rfl
        rw [h0] at hdec
        exact (Option.some_injective _ hdec).symm
      rw [this] at hlen
      simp at hlen
    simp [validate_chunk, hv, PyVal.truthy, PyVal.isStr, PyVal.asStr, hne, hdec, hlen]

/-- UTF-8 byte size of a repeated character. -/
theorem utf8_go_replicate (c : Char) :
    ∀ n, String.utf8ByteSize.go (List.replicate n c) = n * c.utf8Size := by
  intro n
  induction n with
  | zero => simp
  | succ n ih =>
    rw [List.replicate_succ]
    rw [show String.utf8ByteSize.go (c :: List.replicate n c) =
        String.utf8ByteSize.go (List.replicate n c) + c.utf8Size from rfl, ih]
    ring

theorem text4096_size : text4096.utf8ByteSize = 4096 := by
  show String.utf8ByteSize.go (List.replicate 4096 'a') = 4096
  rw [utf8_go_replicate]
  norm_num [show ('a').utf8Size = 1 from by decide]

theorem text4097_size : text4097.utf8ByteSize = 4097 := by
  show String.utf8ByteSize.go (List.replicate 4097 'a') = 4097
  rw [utf8_go_replicate]
  norm_num [show ('a').utf8Size = 1 from by decide]

/-- One full base64 group of A characters decodes to three zero bytes in
front of the rest. -/
theorem b64_groups_cons_A (rest : List Char) :
    b64DecodeGroups ('A' :: 'A' :: 'A' :: 'A' :: rest) =
      (b64DecodeGroups rest).map (fun t => 0 :: 0 :: 0 :: t) := by
  cases rest with
  | nil => rfl
  | cons x xs =>
    simp [b64DecodeGroups, b64CharVal]
    cases h : b64DecodeGroups (x :: xs) <;> simp

/-- Repeated full groups of A characters decode to repeated zero bytes. -/
theorem b64_groups_replicate (tail : List Char) :
    ∀ n, b64DecodeGroups (List.replicate (4 * n) 'A' ++ tail) =
      (b64DecodeGroups tail).map (fun t => List.replicate (3 * n) 0 ++ t) := by
  intro n
  induction n with
  | zero =>
    rw [List.replicate_zero, List.replicate_zero, List.nil_append]
    cases b64DecodeGroups tail <;> rfl
  | succ n ih =>
    have h4 : 4 * (n + 1) = 4 + 4 * n := by ring
    have h3 : 3 * (n + 1) = 3 + 3 * n := by ring
    rw [h4, h3, List.replicate_add, List.replicate_add]
    have hrep : (List.replicate 4 'A' ++ List.replicate (4 * n) 'A') ++ tail =
        'A' :: 'A' :: 'A' :: 'A' :: (List.replicate (4 * n) 'A' ++ tail) := by
      simp [List.replicate]
    rw [hrep, b64_groups_cons_A, ih]
    cases b64DecodeGroups tail <;> simp [List.replicate]

theorem chunk16384_decode :
    b64decode chunk16384 = some (List.replicate 16383 0 ++ [0]) := by
  unfold b64decode chunk16384
  have hfilter :
      ((List.replicate 21844 'A' ++ ['A', 'A', '=', '='] : List Char).filter
        b64Keep) = List.replicate 21844 'A' ++ ['A', 'A', '=', '='] := by
    rw [List.filter_append, List.filter_replicate]
    rw [show b64Keep 'A' = true from by decide]
    rw [if_pos rfl]
    exact congrArg (List.replicate 21844 'A' ++ .) (by decide)
  rw [show (String.mk (List.replicate 21844 'A' ++ ['A', 'A', '=', '='])).data =
      List.replicate 21844 'A' ++ ['A', 'A', '=', '='] from rfl]
  rw [hfilter]
  rw [show (21844 : ℕ) = 4 * 5461 by norm_num]
  rw [b64_groups_replicate]
  rw [show b64DecodeGroups ['A', 'A', '=', '='] = some [0] from rfl]
  norm_num

theorem chunk16385_decode :
    b64decode chunk16385 = some (List.replicate 16383 0 ++ [0, 0]) := by
  unfold b64decode chunk16385
  have hfilter :
      ((List.replicate 21844 'A' ++ ['A', 'A', 'A', '='] : List Char).filter
        b64Keep) = List.replicate 21844 'A' ++ ['A', 'A', 'A', '='] := by
    rw [List.filter_append, List.filter_replicate]
    rw [show b64Keep 'A' = true from by decide]
    rw [if_pos rfl]
    exact congrArg (List.replicate 21844 'A' ++ .) (by decide)
  rw [show (String.mk (List.replicate 21844 'A' ++ ['A', 'A', 'A', '='])).data =
      List.replicate 21844 'A' ++ ['A', 'A', 'A', '='] from rfl]
  rw [hfilter]
  rw [show (21844 : ℕ) = 4 * 5461 by norm_num]
  rw [b64_groups_replicate]
  rw [show b64DecodeGroups ['A', 'A', 'A', '='] = some [0, 0] from rfl]
  norm_num

/-- Witness for protocol_size_boundaries at the four concrete boundary
inputs. -/
theorem protocol_size_boundaries_witness :
    validate_text [("text", PyVal.pstr text4096)] = .ok text4096 ∧
    validate_text [("text", PyVal.pstr text4097)] =
      .error "text exceeds maximum size of 4KB" ∧
    validate_chunk [("chunk", PyVal.pstr chunk16384)] =
      .ok (List.replicate 16383 0 ++ [0]) ∧
    validate_chunk [("chunk", PyVal.pstr chunk16385)] =
      .error "Invalid base64 chunk: audio chunk exceeds maximum size of 16KB" := by
  refine ⟨?_, ?_, ?_, ?_⟩
  · exact (protocol_size_boundaries _).1 text4096 rfl text4096_size
  · exact (protocol_size_boundaries _).2.1 text4097 rfl text4097_size
  · exact (protocol_size_boundaries _).2.2.1 chunk16384 _ rfl chunk16384_decode
      (by rw [List.length_append, List.length_replicate]; norm_num)
  · exact (protocol_size_boundaries _).2.2.2 chunk16385 _ rfl chunk16385_decode
      (by rw [List.length_append, List.length_replicate]; norm_num)

/- ### C8: VAD event state machine -/

/-- The branch taken by process_audio_frame in each of the four cases. -/
theorem process_audio_frame_cases (threshold : ℚ) (st : VadState) (p : ℚ) :
    (st.is_speaking = false → threshold ≤ p →
      process_audio_frame threshold st p = (⟨true⟩, .startOfSpeech)) ∧
    (st.is_speaking = true → p < threshold →
      process_audio_frame threshold st p = (⟨false⟩, .endOfSpeech)) ∧
    (st.is_speaking = true → threshold ≤ p →
      process_audio_frame threshold st p = (st, .continuing)) ∧
    (st.is_speaking = false → p < threshold →
      process_audio_frame threshold st p = (st, .continuing)) := by
  refine ⟨?_, ?_, ?_, ?_⟩ <;> intro hs hp <;>
    simp [process_audio_frame, hs, hp, not_le.mpr, not_lt.mpr]

/-- Alternation invariant for runVad: the non-continuing events never hold
two adjacent starts, and from a speaking state the first non-continuing
event is not a start. -/
theorem runVad_alternation_aux (threshold : ℚ) (ps : List ℚ) :
    ∀ st : VadState,
      noDoubleStart (runVad threshold st ps).2 ∧
      (st.is_speaking = true →
        ((runVad threshold st ps).2.filter
          (fun e => e ≠ VadEvent.continuing)).head? ≠
          some VadEvent.startOfSpeech) := by
  induction ps with
  | nil =>
    intro st
    exact ⟨List.chain'_nil, fun _ => by simp [runVad]⟩
  | cons p ps ih =>
    intro st
    have hc := process_audio_frame_cases threshold st p
    by_cases hp : threshold ≤ p
    · cases hst : st.is_speaking
      · -- start of speech is emitted, the new state is speaking
        have hstep := hc.1 hst hp
        have hrest := ih ⟨true⟩
        constructor
        · show noDoubleStart (runVad threshold st (p :: ps)).2
          simp only [runVad, hstep]
          unfold noDoubleStart
          simp only [List.filter_cons]
          rw [if_pos (by decide)]
          rw [List.chain'_cons']
          refine ⟨?_, hrest.1⟩
          intro b hb
          intro hcontra
          exact hrest.2 rfl (by rw [hb, hcontra.2])
        · intro h
          exact absurd h (by simp [hst])
      · -- continuing, state unchanged and still speaking
        have hstep := hc.2.2.1 hst hp
        have hrest := ih st
        constructor
        · show noDoubleStart (runVad threshold st (p :: ps)).2
          simp only [runVad, hstep]
          unfold noDoubleStart
          simp only [List.filter_cons]
          rw [if_neg (by decide)]
          exact hrest.1
        · intro _
          simp only [runVad, hstep, List.filter_cons]
          rw [if_neg (by decide)]
          exact hrest.2 hst
    · have hplt : p < threshold := not_le.mp hp
      cases hst : st.is_speaking
      · -- continuing, state unchanged and still not speaking
        have hstep := hc.2.2.2 hst hplt
        have hrest := ih st
        constructor
        · show noDoubleStart (runVad threshold st (p :: ps)).2
          simp only [runVad, hstep]
          unfold noDoubleStart
          simp only [List.filter_cons]
          rw [if_neg (by decide)]
          exact hrest.1
        · intro h
          exact absurd h (by simp [hst])
      · -- end of speech is emitted, the new state is not speaking
        have hstep := hc.2.1 hst hplt
        have hrest := ih ⟨false⟩
        constructor
        · show noDoubleStart (runVad threshold st (p :: ps)).2
          simp only [runVad, hstep]
          unfold noDoubleStart
          simp only [List.filter_cons]
          rw [if_pos (by decide)]
          rw [List.chain'_cons']
          refine ⟨?_, hrest.1⟩
          intro b _
          intro hcontra
          cases hcontra.1
        · intro _
          simp only [runVad, hstep, List.filter_cons]
          rw [if_pos (by decide)]
          simp

/-- C8: the emitted event is START_OF_SPEECH exactly when not speaking and
the probability reaches the threshold (setting speaking), END_OF_SPEECH
exactly when speaking and the probability is below (clearing speaking), and
CONTINUING otherwise; consequently no event sequence contains two
START_OF_SPEECH events without an intervening END_OF_SPEECH. -/
theorem vad_event_machine (threshold : ℚ) :
    (∀ (st : VadState) (p : ℚ),
      ((process_audio_frame threshold st p).2 = .startOfSpeech ↔
        st.is_speaking = false ∧ threshold ≤ p) ∧
      ((process_audio_frame threshold st p).2 = .endOfSpeech ↔
        st.is_speaking = true ∧ p < threshold) ∧
      ((process_audio_frame threshold st p).2 = .startOfSpeech →
        (process_audio_frame threshold st p).1.is_speaking = true) ∧
      ((process_audio_frame threshold st p).2 = .endOfSpeech →
        (process_audio_frame threshold st p).1.is_speaking = false) ∧
      ((process_audio_frame threshold st p).2 = .continuing →
        (process_audio_frame threshold st p).1 = st)) ∧
    (∀ (st : VadState) (ps : List ℚ), noDoubleStart (runVad threshold st ps).2) := by
  constructor
  · intro st p
    have hc := process_audio_frame_cases threshold st p
    by_cases hp : threshold ≤ p
    · cases hst : st.is_speaking
      · rw [hc.1 hst hp]
        refine ⟨by simp [hst, hp], by simp [hst], by simp, by simp, by simp⟩
      · rw [hc.2.2.1 hst hp]
        refine ⟨by simp, by simp [not_lt.mpr hp], by simp, by simp, by simp⟩
    · have hplt : p < threshold := not_le.mp hp
      cases hst : st.is_speaking
      · rw [hc.2.2.2 hst hplt]
        refine ⟨by simp [hp], by simp [hst], by simp, by simp, by simp⟩
      · rw [hc.2.1 hst hplt]
        refine ⟨by simp [hst], by simp [hst, hplt], by simp, by simp, by simp⟩
  · intro st ps
    exact (runVad_alternation_aux threshold ps st).1

/-- Witness for vad_event_machine: with threshold one half, rising then
falling probability emits start, continuing, end, and the trace has no
double start. -/
theorem vad_event_machine_witness :
    (process_audio_frame (1/2) ⟨false⟩ (3/4)).2 = .startOfSpeech ∧
    noDoubleStart (runVad (1/2) ⟨false⟩ [3/4, 3/4, 1/4]).2 := by
  constructor
  · exact ((vad_event_machine (1/2)).1 ⟨false⟩ (3/4)).1.mpr ⟨rfl, by norm_num⟩
  · exact (vad_event_machine (1/2)).2 ⟨false⟩ [3/4, 3/4, 1/4]

/- ### C7: session expiry -/

/-- Updating the activity of one session changes no key membership. -/
theorem lookup_update_activity (sid sid2 : String) (now : ℕ) :
    ∀ l : List (String × SessionRec),
      ((update_activity l sid2 now).lookup sid).isSome = (l.lookup sid).isSome := by
  intro l
  induction l with
  | nil => rfl
  | cons p rest ih =>
    obtain ⟨k, v⟩ := p
    unfold update_activity at ih ⊢
    simp only [List.map_cons]
    by_cases hp : k = sid2
    · rw [if_pos (show (k, v).1 = sid2 from hp)]
      cases hbe : sid == k <;> simp [List.lookup, hbe, ih]
    · rw [if_neg (show ¬ (k, v).1 = sid2 from hp)]
      cases hbe : sid == k <;> simp [List.lookup, hbe, ih]

/-- A client message step never removes a session. -/
theorem handle_message_preserves_lookup (st : StoreState) (sid sid2 : String)
    (now : ℕ) (h : (st.sessions.lookup sid).isSome = true) :
    ((handle_message_session st sid2 now).sessions.lookup sid).isSome = true := by
  unfold handle_message_session
  cases hl : st.sessions.lookup sid2
  · simp only [List.lookup_append]
    cases hv : st.sessions.lookup sid
    · rw [hv] at h
      cases h
    · simp [hv]
  · simp only []
    rw [lookup_update_activity]
    exact h

/-- A client message step publishes at most session_created. -/
theorem handle_message_events (st : StoreState) (sid2 : String) (now : ℕ) :
    (handle_message_session st sid2 now).published_events.contains
        "session_destroyed" =
      st.published_events.contains "session_destroyed" := by
  unfold handle_message_session
  cases hl : st.sessions.lookup sid2
  · simp
  · rfl

theorem run_store_preserves_lookup (ops : List StoreOp) :
    ∀ (st : StoreState) (sid : String),
      (st.sessions.lookup sid).isSome = true →
      ((run_store st ops).sessions.lookup sid).isSome = true := by
  induction ops with
  | nil =>
    intro st sid h
    exact h
  | cons op ops ih =>
    intro st sid h
    cases op with
    | clientMessage sid2 now =>
      exact ih _ sid (handle_message_preserves_lookup st sid sid2 now h)

theorem run_store_events (ops : List StoreOp) :
    ∀ st : StoreState,
      (run_store st ops).published_events.contains "session_destroyed" =
        st.published_events.contains "session_destroyed" := by
  induction ops with
  | nil =>
    intro st
    rfl
  | cons op ops ih =>
    intro st
    cases op with
    | clientMessage sid2 now =>
      rw [show run_store st (StoreOp.clientMessage sid2 now :: ops) =
        run_store (handle_message_session st sid2 now) ops from rfl]
      rw [ih, handle_message_events]

/-- C7: the claimed background sweep does not exist.  A session created by a
message remains in the store after every further sequence of server
operations, no session_destroyed event is ever published, and yet the
repository has its own expiry predicate which declares a session idle for
301 seconds expired against the default 300 second timeout: the predicate
has no caller and nothing ever retires a session. -/
theorem session_expiry_unimplemented :
    (∀ (ops : List StoreOp) (sid : String) (now : ℕ),
      ((run_store ⟨[], []⟩ (StoreOp.clientMessage sid now :: ops)).sessions.lookup
        sid).isSome = true) ∧
    (∀ ops : List StoreOp,
      (run_store ⟨[], []⟩ ops).published_events.contains "session_destroyed" =
        false) ∧
    is_expired 0 300 301 = true := by
  refine ⟨?_, ?_, by decide⟩
  · intro ops sid now
    rw [show run_store (⟨[], []⟩ : StoreState)
        (StoreOp.clientMessage sid now :: ops) =
      run_store (handle_message_session ⟨[], []⟩ sid now) ops from rfl]
    apply run_store_preserves_lookup
    unfold handle_message_session
    simp [List.lookup]
  · intro ops
    rw [run_store_events]
    rfl

/- ### C1: commit-time transcript capture -/

theorem runRec_cons (s : RecState) (e : RecEvent) (es : List RecEvent) :
    runRec s (e :: es) =
      ((runRec (recStep s e).1 es).1,
       (recStep s e).2.toList ++ (runRec (recStep s e).1 es).2) := rfl

theorem ghostRun_cons (g : List String) (e : RecEvent) (es : List RecEvent) :
    ghostRun g (e :: es) =
      ((ghostRun (ghostStep g e).1 es).1,
       (ghostStep g e).2.toList ++ (ghostRun (ghostStep g e).1 es).2) := rfl

theorem accumFinals_concat (g : List String) (t : String) :
    accumFinals (g ++ [t]) = pyStrip (accumFinals g ++ " " ++ t) := by
  unfold accumFinals
  rw [List.foldl_append]
  rfl

/-- Refinement invariant for the coordinator: whenever the concrete
accumulator equals the fold of the ghost list of finals received since the
last commit or clear, every run preserves that relation, commits exactly the
ghost commits, and each commit is non-empty with the transcript state
cleared before the callback observes it. -/
theorem runRec_ghost (es : List RecEvent) :
    ∀ (s : RecState) (g : List String), s.audio_transcript = accumFinals g →
      (runRec s es).1.audio_transcript = accumFinals (ghostRun g es).1 ∧
      (runRec s es).2.map CommitRecord.transcript = (ghostRun g es).2 ∧
      (∀ c ∈ (runRec s es).2, c.transcript ≠ "" ∧
        c.state_at_callback.audio_transcript = "" ∧
        c.state_at_callback.audio_interim_transcript = "" ∧
        c.state_at_callback.last_final_transcript_time = none) := by
  induction es with
  | nil =>
    intro s g h
    refine ⟨h, rfl, ?_⟩
    intro c hc
    cases hc
  | cons e es ih =>
    intro s g h
    cases e with
    | sttFinal t now =>
      have hinv : pyStrip (s.audio_transcript ++ " " ++ t) = accumFinals (g ++ [t]) := by
        rw [accumFinals_concat, h]
      have hrs : recStep s (.sttFinal t now) =
          (⟨pyStrip (s.audio_transcript ++ " " ++ t), "", some now, s.speaking⟩,
            none) := rfl
      have hgs : ghostStep g (.sttFinal t now) = (g ++ [t], none) := rfl
      rw [runRec_cons, ghostRun_cons, hrs, hgs]
      simp only [Option.toList_none, List.nil_append]
      exact ih _ _ hinv
    | sttInterim t =>
      have hrs : recStep s (.sttInterim t) =
          ({ s with audio_interim_transcript := t }, none) := rfl
      have hgs : ghostStep g (.sttInterim t) = (g, none) := rfl
      rw [runRec_cons, ghostRun_cons, hrs, hgs]
      simp only [Option.toList_none, List.nil_append]
      exact ih _ _ h
    | vadStartOfSpeech =>
      have hrs : recStep s .vadStartOfSpeech =
          ({ s with speaking := true }, none) := rfl
      have hgs : ghostStep g .vadStartOfSpeech = (g, none) := rfl
      rw [runRec_cons, ghostRun_cons, hrs, hgs]
      simp only [Option.toList_none, List.nil_append]
      exact ih _ _ h
    | vadEndOfSpeech =>
      have hrs : recStep s .vadEndOfSpeech =
          ({ s with speaking := false }, none) := rfl
      have hgs : ghostStep g .vadEndOfSpeech = (g, none) := rfl
      rw [runRec_cons, ghostRun_cons, hrs, hgs]
      simp only [Option.toList_none, List.nil_append]
      exact ih _ _ h
    | clearUserTurn =>
      have hrs : recStep s .clearUserTurn =
          (⟨"", "", none, s.speaking⟩, none) := rfl
      have hgs : ghostStep g .clearUserTurn = ([], none) := rfl
      rw [runRec_cons, ghostRun_cons, hrs, hgs]
      simp only [Option.toList_none, List.nil_append]
      exact ih _ _ rfl
    | eouCommitFire =>
      by_cases he : s.audio_transcript = ""
      · have hge : accumFinals g = "" := by rw [← h, he]
        have hrs : recStep s .eouCommitFire = (s, none) := by
          simp [recStep, he]
        have hgs : ghostStep g .eouCommitFire = (g, none) := by
          simp [ghostStep, hge]
        rw [runRec_cons, ghostRun_cons, hrs, hgs]
        simp only [Option.toList_none, List.nil_append]
        exact ih _ _ h
      · have hge : accumFinals g ≠ "" := by
          rw [← h]
          exact he
        have hrs : recStep s .eouCommitFire =
            (⟨"", "", none, s.speaking⟩,
              some ⟨s.audio_transcript, ⟨"", "", none, s.speaking⟩⟩) := by
          simp [recStep, he]
        have hgs : ghostStep g .eouCommitFire = ([], some (accumFinals g)) := by
          simp [ghostStep, hge]
        rw [runRec_cons, ghostRun_cons, hrs, hgs]
        have hih := ih (⟨"", "", none, s.speaking⟩ : RecState) [] rfl
        refine ⟨hih.1, ?_, ?_⟩
        · simp only [Option.toList_some, List.singleton_append, List.map_cons]
          rw [h, hih.2.1]
        · intro c hc
          simp only [Option.toList_some, List.singleton_append, List.mem_cons] at hc
          rcases hc with hc1 | hc2
          · rw [hc1]
            exact ⟨he, rfl, rfl, rfl⟩
          · exact hih.2.2 c hc2

/-- C1 counterexample: the committed transcript is not in general the
single-space-separated, whitespace-trimmed concatenation of the final
transcript texts.  The source re-strips the whole accumulator after each
append (audio_recognition.py lines 181-182), so the finals "a " and "b"
commit as "a b" while the claimed join of those texts is "a  b". -/
theorem rec_join_counterexample :
    (runRec initRecState
        [.sttFinal "a " 0, .sttFinal "b" 1, .eouCommitFire]).2.map
      CommitRecord.transcript = ["a b"] ∧
    spec_join ["a ", "b"] = "a  b" ∧
    ("a b" : String) ≠ "a  b" := by
  refine ⟨by decide, by decide, by decide⟩

/-- C1 amended: for every serialized event trace of the coordinator, the
accumulator always equals the fold that appends each final received since
the last commit or clear with a space separator and re-strips (including
finals arriving during an endpointing delay, since the commit step re-reads
the accumulator after the sleep); every commit passes exactly that value,
is skipped when it is empty, and the transcript state is cleared before the
callback runs. -/
theorem rec_commit_spec (events : List RecEvent) :
    (runRec initRecState events).1.audio_transcript =
      accumFinals (ghostRun [] events).1 ∧
    (runRec initRecState events).2.map CommitRecord.transcript =
      (ghostRun [] events).2 ∧
    (∀ c ∈ (runRec initRecState events).2, c.transcript ≠ "" ∧
      c.state_at_callback.audio_transcript = "" ∧
      c.state_at_callback.audio_interim_transcript = "" ∧
      c.state_at_callback.last_final_transcript_time = none) :=
  runRec_ghost events initRecState [] rfl

/-- Witness for rec_commit_spec: on the demo trace the two finals arriving
before and during the pending decision commit once as the folded
transcript, and that commit is non-empty with cleared callback state. -/
theorem rec_commit_spec_witness :
    (runRec initRecState demoTrace).2.map CommitRecord.transcript =
      ["hello world"] ∧
    ∀ c ∈ (runRec initRecState demoTrace).2, c.transcript ≠ "" := by
  have h := rec_commit_spec demoTrace
  constructor
  · rw [h.2.1]
    decide
  · intro c hc
    exact (h.2.2 c hc).1

/- ### C4 / C5 / C6: agent loop -/

theorem assistant_count_append (l1 l2 : List Message) :
    assistant_count (l1 ++ l2) = assistant_count l1 + assistant_count l2 := by
  simp [assistant_count, List.filter_append]

theorem run_tool_calls_exec_log (env : AgentEnv) :
    ∀ tcs, (run_tool_calls env tcs).exec_log = parsed_ok env tcs := by
  intro tcs
  induction tcs with
  | nil => rfl
  | cons tc rest ih =>
    cases hp : env.parse_args tc.arguments with
    | error e =>
      simp only [run_tool_calls, parsed_ok, List.filterMap_cons, hp]
      simpa [parsed_ok] using ih
    | ok args =>
      cases hx : env.execute tc.name args with
      | ok content =>
        simp only [run_tool_calls, parsed_ok, List.filterMap_cons, hp, hx]
        simpa [parsed_ok] using ih
      | error e =>
        simp only [run_tool_calls, parsed_ok, List.filterMap_cons, hp, hx]
        simpa [parsed_ok] using ih

theorem stream_partials_no_final (chunks : List StreamChunk) :
    (stream_partials chunks).filter isFinalText = [] := by
  unfold stream_partials
  induction chunks.filter (fun c => c.content ≠ "") with
  | nil => rfl
  | cons c rest ih => simp [isFinalText, ih]

theorem stream_partials_no_toolcall (chunks : List StreamChunk) :
    (stream_partials chunks).filter isToolCallMsg = [] := by
  unfold stream_partials
  induction chunks.filter (fun c => c.content ≠ "") with
  | nil => rfl
  | cons c rest ih => simp [isToolCallMsg, ih]

theorem run_tool_calls_no_final (env : AgentEnv) :
    ∀ tcs, (run_tool_calls env tcs).msgs.filter isFinalText = [] := by
  intro tcs
  induction tcs with
  | nil => rfl
  | cons tc rest ih =>
    cases hp : env.parse_args tc.arguments with
    | error e =>
      simp only [run_tool_calls, hp]
      simp [List.filter_append, isFinalText, ih]
    | ok args =>
      cases hx : env.execute tc.name args with
      | ok content =>
        simp only [run_tool_calls, hp, hx]
        simp [List.filter_append, isFinalText, ih]
      | error e =>
        simp only [run_tool_calls, hp, hx]
        simp [List.filter_append, isFinalText, ih]

theorem run_tool_calls_toolcall_count (env : AgentEnv) :
    ∀ tcs, ((run_tool_calls env tcs).msgs.filter isToolCallMsg).length =
      (parsed_ok env tcs).length := by
  intro tcs
  induction tcs with
  | nil => rfl
  | cons tc rest ih =>
    cases hp : env.parse_args tc.arguments with
    | error e =>
      simp only [run_tool_calls, parsed_ok, List.filterMap_cons, hp]
      simp only [List.filter_append, List.length_append]
      simp [isToolCallMsg]
      simpa [parsed_ok] using ih
    | ok args =>
      cases hx : env.execute tc.name args with
      | ok content =>
        simp only [run_tool_calls, parsed_ok, List.filterMap_cons, hp, hx]
        simp only [List.filter_append, List.length_append]
        simp [isToolCallMsg]
        have hr := ih
        simp [parsed_ok] at hr
        omega
      | error e =>
        simp only [run_tool_calls, parsed_ok, List.filterMap_cons, hp, hx]
        simp only [List.filter_append, List.length_append]
        simp [isToolCallMsg]
        have hr := ih
        simp [parsed_ok] at hr
        omega

theorem run_tool_calls_records_no_assistant (env : AgentEnv) :
    ∀ tcs, assistant_count (run_tool_calls env tcs).records = 0 := by
  intro tcs
  induction tcs with
  | nil => rfl
  | cons tc rest ih =>
    cases hp : env.parse_args tc.arguments with
    | error e =>
      simp only [run_tool_calls, hp]
      simpa [assistant_count_append, assistant_count] using ih
    | ok args =>
      cases hx : env.execute tc.name args with
      | ok content =>
        simp only [run_tool_calls, hp, hx]
        simpa [assistant_count_append, assistant_count] using ih
      | error e =>
        simp only [run_tool_calls, hp, hx]
        simpa [assistant_count_append, assistant_count] using ih

theorem commit_final_snd (conversation : List Message) (acc : String) :
    (commit_final conversation acc).2 = .finalText acc := by
  unfold commit_final
  split
  · rfl
  · rename_i h
    rw [not_not.mp (show ¬ acc ≠ "" from h)]

theorem commit_final_fst (conversation : List Message) (acc : String) :
    (commit_final conversation acc).1 =
      conversation ++ (if acc = "" then [] else [⟨"assistant", acc, []⟩]) := by
  unfold commit_final
  split
  · rename_i h
    simp [h]
  · rename_i h
    simp [not_not.mp (show ¬ acc ≠ "" from h)]

/-- Every completed run of process_text_async has the shape: some yielded
prefix with no server_text, followed by the committed final message, with
the conversation extended only by non-assistant messages before the
commit. -/
theorem process_text_shape (env : AgentEnv) (conv : List Message)
    (text : String) :
    process_text_async env conv text = .error "Agent processing failed" ∨
    ∃ pre mid acc inputs log,
      process_text_async env conv text =
        .ok ⟨(commit_final mid acc).1, pre ++ [(commit_final mid acc).2],
             inputs, log⟩ ∧
      pre.filter isFinalText = [] ∧
      assistant_count mid = assistant_count conv := by
  unfold process_text_async
  by_cases h1 : (env.model (prepare_messages_with_instructions env.instructions
      (conv ++ [⟨"user", text, []⟩]))).fails = true
  · left
    rw [if_pos h1]
  · right
    rw [if_neg h1]
    by_cases h2 : (if collect_tool_calls (env.model
          (prepare_messages_with_instructions env.instructions
            (conv ++ [⟨"user", text, []⟩]))).chunks ≠ [] then
        collect_tool_calls (env.model (prepare_messages_with_instructions
          env.instructions (conv ++ [⟨"user", text, []⟩]))).chunks
      else (env.model (prepare_messages_with_instructions env.instructions
        (conv ++ [⟨"user", text, []⟩]))).assistant_tool_calls) = []
    · rw [if_pos h2]
      refine ⟨_, _, _, _, _, rfl, stream_partials_no_final _, ?_⟩
      rw [assistant_count_append]
      simp [assistant_count]
    · rw [if_neg h2]
      refine ⟨_, _, _, _, _, rfl, ?_, ?_⟩
      · rw [List.filter_append, List.filter_append,
          stream_partials_no_final, stream_partials_no_final,
          run_tool_calls_no_final]
        rfl
      · rw [assistant_count_append, assistant_count_append,
          run_tool_calls_records_no_assistant]
        simp [assistant_count]

/-- C5 counterexample: a completed run whose accumulated text is empty does
yield the final empty server_text but appends no assistant message to the
session conversation, against the every-case append of the claim. -/
theorem empty_final_not_appended_counterexample :
    process_text_async c5_env [] "hi" =
      .ok ⟨[⟨"user", "hi", []⟩], [.finalText ""], [[⟨"user", "hi", []⟩]], []⟩ ∧
    ([⟨"user", "hi", []⟩] : List Message).all
      (fun m => m.role != "assistant") = true :=
  ⟨rfl, rfl⟩

/-- C5 amended: every completed run of process_text_async yields exactly one
server_text, it is the last message yielded, and the assistant message is
appended to the session conversation exactly when the accumulated text is
non-empty; an empty final text is yielded but appends nothing. -/
theorem process_text_final_emission (env : AgentEnv) (conv : List Message)
    (text : String) (r : AgentRunResult)
    (h : process_text_async env conv text = .ok r) :
    ∃ t, r.yielded.getLast? = some (.finalText t) ∧
      r.yielded.filter isFinalText = [.finalText t] ∧
      assistant_count r.conversation =
        assistant_count conv + (if t = "" then 0 else 1) ∧
      (t ≠ "" → r.conversation.getLast? = some ⟨"assistant", t, []⟩) := by
  rcases process_text_shape env conv text with hsh |
    ⟨pre, mid, acc, inputs, log, heq, hpre, hmid⟩
  · rw [hsh] at h
    cases h
  · rw [heq] at h
    injection h with h2
    subst h2
    refine ⟨acc, ?_, ?_, ?_, ?_⟩
    · rw [show (AgentRunResult.mk (commit_final mid acc).1
          (pre ++ [(commit_final mid acc).2]) inputs log).yielded =
          pre ++ [(commit_final mid acc).2] from rfl,
        List.getLast?_concat, commit_final_snd]
    · rw [show (AgentRunResult.mk (commit_final mid acc).1
          (pre ++ [(commit_final mid acc).2]) inputs log).yielded =
          pre ++ [(commit_final mid acc).2] from rfl,
        List.filter_append, hpre, commit_final_snd]
      simp [isFinalText]
    · rw [show (AgentRunResult.mk (commit_final mid acc).1
          (pre ++ [(commit_final mid acc).2]) inputs log).conversation =
          (commit_final mid acc).1 from rfl,
        commit_final_fst, assistant_count_append, hmid]
      by_cases hacc : acc = "" <;> simp [hacc, assistant_count]
    · intro hne
      rw [show (AgentRunResult.mk (commit_final mid acc).1
          (pre ++ [(commit_final mid acc).2]) inputs log).conversation =
          (commit_final mid acc).1 from rfl,
        commit_final_fst, if_neg hne, List.getLast?_concat]

/-- Witness for process_text_final_emission, applied to a model that
streams nothing: the run completes with the single empty final text and no
assistant message appended. -/
theorem process_text_final_emission_witness :
    ∃ t, ([ServerMsg.finalText ""].getLast? = some (ServerMsg.finalText t)) ∧
      ([ServerMsg.finalText ""].filter isFinalText = [ServerMsg.finalText t]) ∧
      (assistant_count [⟨"user", "hi", []⟩] =
        assistant_count ([] : List Message) + (if t = "" then 0 else 1)) ∧
      (t ≠ "" → ([⟨"user", "hi", []⟩] : List Message).getLast? =
        some ⟨"assistant", t, []⟩) :=
  process_text_final_emission c5_env [] "hi"
    ⟨[⟨"user", "hi", []⟩], [.finalText ""], [[⟨"user", "hi", []⟩]], []⟩ rfl

/-- C4 counterexample: with a model that requests second_tool in the round
after tool execution, the completed run executed only first_tool although
the model was invoked exactly twice and its second response contained a
tool call: the loop is not repeated for second and later rounds. -/
theorem second_round_tools_counterexample :
    (process_text_async c4_env [] "hi").map
      (fun r => (r.exec_log, r.model_inputs.map (fun ms =>
        collect_tool_calls (c4_env.model ms).chunks))) =
    .ok ([("first_tool", [])],
      [[⟨"first_tool", "\x7b\x7d", none⟩],
       [⟨"second_tool", "\x7b\x7d", none⟩]]) := rfl

/-- C4 amended: after executing the tool calls of the first model response
and appending their results, the driver re-invokes the model exactly once
with the updated conversation; the executed tools are exactly the
parse-successful calls of the first response, every yielded
server_tool_call corresponds to one of them, tool calls of the second
response are never executed, and no tool_call_limit exists. -/
theorem process_text_single_followup (env : AgentEnv) (conv : List Message)
    (text : String)
    (hfail : (env.model (prepare_messages_with_instructions env.instructions
      (conv ++ [⟨"user", text, []⟩]))).fails = false) :
    ∃ r, process_text_async env conv text = .ok r ∧
      r.exec_log = parsed_ok env
        (if collect_tool_calls (env.model (prepare_messages_with_instructions
            env.instructions (conv ++ [⟨"user", text, []⟩]))).chunks ≠ [] then
          collect_tool_calls (env.model (prepare_messages_with_instructions
            env.instructions (conv ++ [⟨"user", text, []⟩]))).chunks
        else (env.model (prepare_messages_with_instructions env.instructions
          (conv ++ [⟨"user", text, []⟩]))).assistant_tool_calls) ∧
      r.model_inputs.length ≤ 2 ∧
      (r.yielded.filter isToolCallMsg).length = r.exec_log.length := by
  unfold process_text_async
  rw [if_neg (by rw [hfail]; exact Bool.false_ne_true)]
  by_cases h2 : (if collect_tool_calls (env.model
        (prepare_messages_with_instructions env.instructions
          (conv ++ [⟨"user", text, []⟩]))).chunks ≠ [] then
      collect_tool_calls (env.model (prepare_messages_with_instructions
        env.instructions (conv ++ [⟨"user", text, []⟩]))).chunks
    else (env.model (prepare_messages_with_instructions env.instructions
      (conv ++ [⟨"user", text, []⟩]))).assistant_tool_calls) = []
  · rw [if_pos h2]
    refine ⟨_, rfl, ?_, ?_, ?_⟩
    · rw [h2]
      rfl
    · simp
    · rw [show (AgentRunResult.mk _ (stream_partials (env.model
          (prepare_messages_with_instructions env.instructions
          (conv ++ [⟨"user", text, []⟩]))).chunks ++
          [(commit_final (conv ++ [⟨"user", text, []⟩])
            (stream_text (env.model (prepare_messages_with_instructions
              env.instructions (conv ++ [⟨"user", text, []⟩]))).chunks)).2])
          _ ([] : List (String × ToolArgs))).yielded =
          stream_partials (env.model (prepare_messages_with_instructions
            env.instructions (conv ++ [⟨"user", text, []⟩]))).chunks ++
          [(commit_final (conv ++ [⟨"user", text, []⟩])
            (stream_text (env.model (prepare_messages_with_instructions
              env.instructions (conv ++ [⟨"user", text, []⟩]))).chunks)).2]
          from rfl]
      rw [List.filter_append, stream_partials_no_toolcall, commit_final_snd]
      simp [isToolCallMsg]
  · rw [if_neg h2]
    refine ⟨_, rfl, ?_, ?_, ?_⟩
    · exact run_tool_calls_exec_log env _
    · simp
    · rw [List.filter_append, List.filter_append, List.filter_append,
        stream_partials_no_toolcall, stream_partials_no_toolcall,
        commit_final_snd]
      simp only [List.append_nil, List.nil_append]
      rw [show (List.filter isToolCallMsg [ServerMsg.finalText _]) = []
          from by simp [isToolCallMsg]]
      simp only [List.append_nil]
      rw [run_tool_calls_toolcall_count, run_tool_calls_exec_log]

/-- Witness for process_text_single_followup at the two-round environment:
the hypothesis holds by evaluation and the run completes. -/
theorem process_text_single_followup_witness :
    ∃ r, process_text_async c4_env [] "hi" = .ok r ∧
      r.exec_log = parsed_ok c4_env
        (if collect_tool_calls (c4_env.model (prepare_messages_with_instructions
            c4_env.instructions ([] ++ [⟨"user", "hi", []⟩]))).chunks ≠ [] then
          collect_tool_calls (c4_env.model (prepare_messages_with_instructions
            c4_env.instructions ([] ++ [⟨"user", "hi", []⟩]))).chunks
        else (c4_env.model (prepare_messages_with_instructions c4_env.instructions
          ([] ++ [⟨"user", "hi", []⟩]))).assistant_tool_calls) ∧
      r.model_inputs.length ≤ 2 ∧
      (r.yielded.filter isToolCallMsg).length = r.exec_log.length :=
  process_text_single_followup c4_env [] "hi" rfl

/-- C6 counterexample: a tool call with unparseable arguments is never
executed with an empty arguments object or at all: the completed run has an
empty execution log and yields no server_tool_call, recording only the
error-content tool message for that call. -/
theorem parse_failure_no_execution_counterexample :
    (process_text_async c6_env [] "hi").map
      (fun r => (r.exec_log, r.yielded.filter isToolCallMsg,
        r.conversation.filter (fun m => m.role == "tool"))) =
    .ok ([], [],
      [⟨"tool", "Error: Expecting value: line 1 column 1 (char 0)",
        [⟨"lookup_user", "Error: Expecting value: line 1 column 1 (char 0)"⟩]⟩]) :=
  rfl

/-- C6 amended: a tool call whose arguments string fails to parse as JSON
is not executed at all: its per-call except handler yields a failed
server_tool_result carrying the parse error, records a tool message whose
content notes the failure, yields no server_tool_call for it, and the loop
continues unchanged with the remaining calls. -/
theorem tool_parse_failure_skips_execution (env : AgentEnv)
    (tc : ToolCallReq) (rest : List ToolCallReq) (e : String)
    (h : env.parse_args tc.arguments = .error e) :
    run_tool_calls env (tc :: rest) =
      ⟨ServerMsg.toolResultMsg tc.name false e tc.id ::
        (run_tool_calls env rest).msgs,
       (⟨"tool", "Error: " ++ e, [⟨tc.name, "Error: " ++ e⟩]⟩ : Message) ::
        (run_tool_calls env rest).records,
       (run_tool_calls env rest).exec_log⟩ := by
  simp only [run_tool_calls, h]
  rfl

/-- Witness for tool_parse_failure_skips_execution at the concrete
unparseable call. -/
theorem tool_parse_failure_skips_execution_witness :
    run_tool_calls c6_env [⟨"lookup_user", "not json", none⟩] =
      ⟨[ServerMsg.toolResultMsg "lookup_user" false
          "Expecting value: line 1 column 1 (char 0)" none],
       [⟨"tool", "Error: Expecting value: line 1 column 1 (char 0)",
         [⟨"lookup_user",
           "Error: Expecting value: line 1 column 1 (char 0)"⟩]⟩],
       []⟩ := by
  rw [tool_parse_failure_skips_execution c6_env
    ⟨"lookup_user", "not json", none⟩ [] "Expecting value: line 1 column 1 (char 0)" rfl]
  rfl
